import Mathlib

/-!
Shallow embedding of the player-backend repository (src/main.py, src/schemas.py).

The backing relational store is modelled as an explicit in-memory state
(`PlayerStore`, `UserStore`) threaded through each handler; SQLAlchemy's
autoincrement primary key is modelled by a `nextId` counter.  HTTP exceptions
raised by the handlers become `Except` errors carrying the status code and
detail string of the corresponding `HTTPException`.
-/

namespace PlayerBackend

/-- The ASCII whitespace characters stripped by Python's `str.strip()`
(space, tab, newline, carriage return, vertical tab, form feed). -/
def isSpaceChar (c : Char) : Bool :=
  c == ' ' || c == '\t' || c == '\n' || c == '\r' || c == '\x0b' || c == '\x0c'

/-- `str.strip()` on a character list: drop whitespace from the right end,
then from the left. -/
def stripChars (l : List Char) : List Char :=
  ((l.reverse.dropWhile isSpaceChar).reverse).dropWhile isSpaceChar

/-- Python's `s.strip()` (restricted to ASCII whitespace). -/
def pyStrip (s : String) : String := ⟨stripChars s.data⟩

/-- Python's `not s.strip()`: the string is empty or whitespace-only. -/
def strippedEmpty (s : String) : Bool := (stripChars s.data).isEmpty

/-- A row of the `players` table (`models.Player`): the fields of
`schemas.Player` minus the timestamps, which no handler logic reads. -/
structure Player where
  id : Nat
  name : String
  position : Option String := none
  team : Option String := none
  age : Option Int := none
  jersey_number : Option Int := none
deriving Repr, DecidableEq

/-- The players table: its rows in insertion order plus the next
autoincrement id. -/
structure PlayerStore where
  players : List Player
  nextId : Nat
deriving Repr, DecidableEq

/-- The empty players table. -/
def PlayerStore.empty : PlayerStore := ⟨[], 0⟩

/-- `schemas.PlayerCreate`: a required name and four optional fields
(defaulting to None). -/
structure PlayerCreate where
  name : String
  position : Option String := none
  team : Option String := none
  age : Option Int := none
  jersey_number : Option Int := none
deriving Repr, DecidableEq

/-- `schemas.PlayerUpdate`: every field optional.  `some v` means the field
was supplied in the request body; `none` means it was unset and is excluded
by `player.dict(exclude_unset=True)`.  For the four optional columns the
supplied value is itself an `Option`, since the request may supply an
explicit null. -/
structure PlayerUpdate where
  name : Option String := none
  position : Option (Option String) := none
  team : Option (Option String) := none
  age : Option (Option Int) := none
  jersey_number : Option (Option Int) := none
deriving Repr, DecidableEq

/-- An `HTTPException`: status code and detail message. -/
structure HTTPError where
  status : Nat
  detail : String
deriving Repr, DecidableEq

/-- `POST /api/players/` (`create_player` in src/main.py lines 123-133):
builds a `models.Player` from the validated `PlayerCreate` body, inserts it
and commits; the store assigns the id. -/
def create_player (db : PlayerStore) (p : PlayerCreate) : Player × PlayerStore :=
  let pl : Player :=
    { id := db.nextId, name := p.name, position := p.position, team := p.team,
      age := p.age, jersey_number := p.jersey_number }
  (pl, { players := db.players ++ [pl], nextId := db.nextId + 1 })

/-- `GET /api/players/` (`read_players`, lines 135-143):
`db.query(Player).offset(skip).limit(limit).all()`. -/
def read_players (db : PlayerStore) (skip limit : Nat) : List Player :=
  (db.players.drop skip).take limit

/-- `GET /api/players/{player_id}` (`read_player`, lines 145-154):
`filter(Player.id == player_id).first()`, raising 404 when absent. -/
def read_player (db : PlayerStore) (player_id : Nat) : Except HTTPError Player :=
  match db.players.find? (fun p => p.id == player_id) with
  | none => .error ⟨404, "Player not found"⟩
  | some p => .ok p

/-- The `setattr` loop of `update_player` (lines 167-168): each field present
in `player.dict(exclude_unset=True)` overwrites the stored attribute. -/
def applyUpdate (p : Player) (u : PlayerUpdate) : Player :=
  { p with
    name := u.name.getD p.name
    position := u.position.getD p.position
    team := u.team.getD p.team
    age := u.age.getD p.age
    jersey_number := u.jersey_number.getD p.jersey_number }

/-- `PUT /api/players/{player_id}` (`update_player`, lines 156-172): look up
the row by id (404 when absent), overwrite exactly the supplied fields, and
commit the mutated row in place. -/
def update_player (db : PlayerStore) (player_id : Nat) (u : PlayerUpdate) :
    Except HTTPError (Player × PlayerStore) :=
  match db.players.find? (fun p => p.id == player_id) with
  | none => .error ⟨404, "Player not found"⟩
  | some p =>
    let p' := applyUpdate p u
    .ok (p', { db with
      players := db.players.map (fun q => if q.id == player_id then p' else q) })

/-- `DELETE /api/players/{player_id}` (`delete_player`, lines 174-186): look
up the row by id (404 when absent), then delete it and commit. -/
def delete_player (db : PlayerStore) (player_id : Nat) :
    Except HTTPError PlayerStore :=
  match db.players.find? (fun p => p.id == player_id) with
  | none => .error ⟨404, "Player not found"⟩
  | some _ =>
    .ok { db with players := db.players.filter (fun q => !(q.id == player_id)) }

/-- Needle is an initial segment of the haystack (character lists). -/
def segAt : List Char → List Char → Bool
  | [], _ => true
  | _ :: _, [] => false
  | a :: as, b :: bs => a == b && segAt as bs

/-- Needle occurs as a contiguous segment somewhere in the haystack. -/
def hasSeg (needle : List Char) : List Char → Bool
  | [] => segAt needle []
  | c :: rest => segAt needle (c :: rest) || hasSeg needle rest

/-- ASCII lowercasing of a character list. -/
def lowerChars (l : List Char) : List Char := l.map Char.toLower

/-- The spec's description of search ("case-insensitive substring match on
name"): literal containment of the lowercased search string in the lowercased
name.  This is the spec-side definition, to be compared with the code's
`ilikeContains` below; the two agree exactly when the search string carries
no SQL LIKE wildcard character. -/
def containsCI (hay needle : String) : Bool :=
  hasSeg (lowerChars needle.data) (lowerChars hay.data)

/-- All suffixes of a character list, longest first, ending with `[]`. -/
def sufxs : List Char → List (List Char)
  | [] => [[]]
  | c :: cs => (c :: cs) :: sufxs cs

/-- SQL LIKE matching of a pattern against a string (both already
case-folded): `%` matches any, possibly empty, run of characters, `_`
matches exactly one character, and any other pattern character matches
itself.  A `%` succeeds when the rest of the pattern matches some suffix of
the string. -/
def likeMatch : List Char → List Char → Bool
  | [], s => s.isEmpty
  | p :: ps, s =>
    if p == '%' then
      (sufxs s).any (fun t => likeMatch ps t)
    else
      match s with
      | [] => false
      | c :: s' => (p == '_' || p == c) && likeMatch ps s'

/-- The unescaped LIKE pattern `f"%{name}%"` built by line 197: the user's
search string is spliced between two `%` with no escaping, so `%` and `_`
inside it keep their wildcard meaning. -/
def ilikePattern (needle : String) : List Char :=
  '%' :: (lowerChars needle.data ++ ['%'])

/-- `Player.name.ilike(f"%{name}%")` from `search_players_by_name`
(line 197): SQL LIKE match of the unescaped pattern `%name%` against the
stored name, case-insensitively (modelled by ASCII-lowercasing both sides
before matching). -/
def ilikeContains (hay needle : String) : Bool :=
  likeMatch (ilikePattern needle) (lowerChars hay.data)

/-- `GET /api/search` (`search_players_by_name`, lines 189-200): filter by
the ilike pattern match, paginate with offset/limit, and raise 404 when the
resulting page is empty. -/
def search_players_by_name (db : PlayerStore) (name : String) (skip limit : Nat) :
    Except HTTPError (List Player) :=
  let players := ((db.players.filter (fun p => ilikeContains p.name name)).drop skip).take limit
  if players.isEmpty then .error ⟨404, "No players found with the given name"⟩
  else .ok players

/-- Modelled from the spec: `models.User` is not under src/.  Spec section 3
gives the User record as {id, email, username, hashed_password, is_active,
created_at}; the creation timestamp carries no handler logic and is dropped. -/
structure User where
  id : Nat
  email : String
  username : String
  hashed_password : String
  is_active : Bool
deriving Repr, DecidableEq

/-- The users table: rows in insertion order plus the next autoincrement id. -/
structure UserStore where
  users : List User
  nextId : Nat
deriving Repr, DecidableEq

/-- The empty users table. -/
def UserStore.empty : UserStore := ⟨[], 0⟩

/-- Modelled from the spec: `auth.get_user` lives in auth.py, which is not
under src/.  Spec section 2 says the Credential Store exposes
lookup-by-username; lookup returns the first stored user carrying the
username. -/
def get_user (db : UserStore) (username : String) : Option User :=
  db.users.find? (fun u => u.username == username)

/-- `POST /api/signup` (`signup` in src/main.py lines 83-98): reject with 400
when `auth.get_user` finds the username, otherwise hash the password and
insert a new user.  The hash function (`auth.get_password_hash`, not under
src/) is a parameter; per spec section 4.4 the new user has is_active = true.
The store state after the call is returned in both branches, so an error
leaves the store untouched. -/
def signup (hash : String → String) (db : UserStore)
    (email username password : String) :
    Except (HTTPError × UserStore) (User × UserStore) :=
  match get_user db username with
  | some _ => .error (⟨400, "Username already registered"⟩, db)
  | none =>
    let u : User :=
      { id := db.nextId, email := email, username := username,
        hashed_password := hash password, is_active := true }
    .ok (u, { users := db.users ++ [u], nextId := db.nextId + 1 })

/-! ## CSV import pipeline (`upload_players_csv`, src/main.py lines 204-273) -/

/-- A record produced by `csv.DictReader`: header field names paired with the
row's cells.  A cell is `some s` for an actual string value and `none` for a
field the row was too short to supply, which DictReader fills with its
`restval`, the Python value `None`. -/
abbrev Row := List (String × Option String)

/-- `"k" in row` / `row[k]` on a DictReader record: `none` when the key is
not a field of the record at all, otherwise the cell (which may itself be
the restval `None`). -/
def rowGet (row : Row) (k : String) : Option (Option String) :=
  (row.find? (fun kv => kv.1 == k)).map (fun kv => kv.2)

/-- The `HTTPException` of line 227. -/
def nameRequiredError : HTTPError := ⟨400, "Name field is required"⟩

/-- Calling `.strip()` on a restval-`None` cell raises an `AttributeError`,
which the row loop's `except Exception` handler (lines 262-266) converts to
`HTTPException(400, f"Error processing row: {str(e)}")`. -/
def noneStripError : HTTPError :=
  ⟨400, "Error processing row: 'NoneType' object has no attribute 'strip'"⟩

/-- The claim's "name field is absent or empty/whitespace-only" for a parsed
record: the `name` key is missing, or the row was too short to carry a name
cell, or the cell strips to the empty string. -/
def nameBad (row : Row) : Bool :=
  match rowGet row "name" with
  | none => true
  | some none => true
  | some (some v) => strippedEmpty v

/-- Models Python's `int(s)` on a CSV cell: strip surrounding whitespace,
accept an optional sign followed by decimal digits, otherwise raise
(here: `none`).  Digit-group underscores are not modelled; no claim
depends on them. -/
def pyInt (s : String) : Option Int :=
  let go : List Char → Bool → Option Int := fun ds neg =>
    if ds.isEmpty then none
    else if ds.all (fun c => c.isDigit) then
      let n : Nat := ds.foldl (fun acc c => acc * 10 + (c.toNat - 48)) 0
      some (if neg then -(n : Int) else (n : Int))
    else none
  match stripChars s.data with
  | '+' :: ds => go ds false
  | '-' :: ds => go ds true
  | ds => go ds false

/-- One of the four `"f" in row and row[f].strip()` guards (lines 235-244)
hits a restval-`None` cell: the key is a field of the record but the row was
too short to supply it, so `.strip()` raises. -/
def cellNone (cell : Option (Option String)) : Bool :=
  match cell with
  | some none => true
  | _ => false

/-- Lines 235-238: the value a `position`/`team` field receives when no
guard raises — used when the key is present with a string cell that is
non-empty after stripping. -/
def optStrVal (cell : Option (Option String)) : Option String :=
  match cell with
  | some (some v) => if strippedEmpty v then none else some (pyStrip v)
  | _ => none

/-- Lines 239-248: the value an `age`/`jersey_number` field receives when no
guard raises: the cell is parsed as an integer when present and non-empty
after stripping; on parse failure the field is silently omitted
(`except ValueError: pass`). -/
def optIntVal (cell : Option (Option String)) : Option Int :=
  match cell with
  | some (some v) => if strippedEmpty v then none else pyInt v
  | _ => none

/-- The `player_data` record built for a row whose stripped name `nm` is
usable and whose checked cells raise no error (lines 229-248). -/
def rowCreate (row : Row) (nm : String) : PlayerCreate :=
  { name := pyStrip nm
    position := optStrVal (rowGet row "position")
    team := optStrVal (rowGet row "team")
    age := optIntVal (rowGet row "age")
    jersey_number := optIntVal (rowGet row "jersey_number") }

/-- Lines 226-251: the outcome of validating one record.  The name is
checked first: a missing `name` key raises the explicit 400, a restval-`None`
name cell raises the `.strip()` AttributeError, an empty/whitespace name the
explicit 400.  The four optional-field guards then run in source order; each
raises the same AttributeError on a restval-`None` cell, so they collapse
into one disjunction.  Otherwise the `PlayerCreate` is built. -/
def rowToCreate (row : Row) : Except HTTPError PlayerCreate :=
  match rowGet row "name" with
  | none => .error nameRequiredError
  | some none => .error noneStripError
  | some (some nm) =>
    if strippedEmpty nm then .error nameRequiredError
    else if cellNone (rowGet row "position") || cellNone (rowGet row "team") ||
        cellNone (rowGet row "age") || cellNone (rowGet row "jersey_number") then
      .error noneStripError
    else .ok (rowCreate row nm)

/-- A record the row loop processes without an error. -/
def rowOk (row : Row) : Bool :=
  match rowToCreate row with
  | .ok _ => true
  | .error _ => false

/-- One iteration of the row loop (lines 223-258): propagate the record's
validation error, otherwise insert and commit the player immediately. -/
def processRow (db : PlayerStore) (row : Row) : Except HTTPError (Player × PlayerStore) :=
  match rowToCreate row with
  | .error e => .error e
  | .ok pc => .ok (create_player db pc)

/-- The row loop: each successful row is committed before the next row is
read, so the error branch carries the store with every earlier row already
committed (no transactional rollback). -/
def processRows (db : PlayerStore) (rows : List Row) (acc : List Player) :
    Except (HTTPError × PlayerStore) (List Player × PlayerStore) :=
  match rows with
  | [] => .ok (acc, db)
  | r :: rs =>
    match processRow db r with
    | .error e => .error (e, db)
    | .ok (p, db') => processRows db' rs (acc ++ [p])

/-- The outer `except Exception` of lines 270-271 catches the HTTPException
re-raised by the row loop and wraps it: Starlette renders an HTTPException
as `"{status_code}: {detail}"`. -/
def wrapCsvError (e : HTTPError) : HTTPError :=
  ⟨400, "Error processing CSV file: " ++ toString e.status ++ ": " ++ e.detail⟩

/-- Splitting a character list at every occurrence of a separator character;
the result always has at least one (possibly empty) piece. -/
def splitOnChar (sep : Char) : List Char → List (List Char)
  | [] => [[]]
  | c :: rest =>
    match splitOnChar sep rest with
    | [] => [[]]
    | h :: t => if c == sep then [] :: h :: t else (c :: h) :: t

/-- Split a string at a separator character. -/
def splitStr (sep : Char) (s : String) : List String :=
  (splitOnChar sep s.data).map (fun l => ⟨l⟩)

/-- Python's `filename.endswith(suffix)`: the suffix is a terminal segment. -/
def strEndsWith (s suffix : String) : Bool :=
  segAt suffix.data.reverse s.data.reverse

/-- `dict(zip(fieldnames, row))` completed with `restval`: every header key
becomes a field of the record; a key beyond the row's length gets the
restval cell `none`, and cells beyond the header's length go under
DictReader's restkey (the Python value `None`, not a string key) and are
invisible to the handler's string-keyed lookups. -/
def zipRestval : List String → List String → Row
  | [], _ => []
  | k :: ks, [] => (k, none) :: zipRestval ks []
  | k :: ks, v :: vs => (k, some v) :: zipRestval ks vs

/-- `csv.DictReader` on the decoded upload (lines 215-217), for simple
unquoted CSV text: the first line gives the field names, each later
non-blank line becomes a record keyed by them (a short line's missing fields
get restval `None`; blank lines are skipped, as DictReader skips empty
records). -/
def parseCSV (content : String) : List Row :=
  match splitStr '\n' content with
  | [] => []
  | header :: rest =>
    let keys := splitStr ',' header
    (rest.filter (fun line => ¬ line.data.isEmpty)).map
      (fun line => zipRestval keys (splitStr ',' line))

/-- `POST /api/players/upload-csv` (lines 204-273): reject with 400 unless
the declared filename ends in ".csv" (this check precedes the try block, so
its error is not wrapped); otherwise parse the body and run the row loop,
wrapping any row error in the outer handler's message. -/
def upload_players_csv (db : PlayerStore) (filename content : String) :
    Except (HTTPError × PlayerStore) (List Player × PlayerStore) :=
  if ¬ strEndsWith filename ".csv" then
    .error (⟨400, "Only CSV files are allowed"⟩, db)
  else
    match processRows db (parseCSV content) [] with
    | .error (e, db') => .error (wrapCsvError e, db')
    | .ok r => .ok r

/-! ## Invariants and auxiliary definitions used by the statements -/

/-- A name that is not empty and not whitespace-only: it carries at least
one non-whitespace character. -/
def goodName (s : String) : Bool := s.data.any (fun c => !(isSpaceChar c))

/-- The spec's Player Store invariant: every stored player has a name that
is not empty and not whitespace-only. -/
def NamesOk (db : PlayerStore) : Bool := db.players.all (fun p => goodName p.name)

/-- Store well-formedness maintained by the autoincrement discipline: all
ids are below the counter and pairwise distinct. -/
def IdsOk (db : PlayerStore) : Prop :=
  (∀ p ∈ db.players, p.id < db.nextId) ∧
    db.players.Pairwise (fun a b => a.id ≠ b.id)

/-- The store after the row loop has inserted a list of error-free rows. -/
def insertAll (db : PlayerStore) (rows : List Row) : PlayerStore :=
  match rows with
  | [] => db
  | r :: rs =>
    match rowToCreate r with
    | .error _ => db
    | .ok pc => insertAll (create_player db pc).2 rs

/-- The players created by the row loop for a list of error-free rows. -/
def newPlayers (db : PlayerStore) (rows : List Row) : List Player :=
  match rows with
  | [] => []
  | r :: rs =>
    match rowToCreate r with
    | .error _ => []
    | .ok pc => (create_player db pc).1 :: newPlayers (create_player db pc).2 rs

/-! ## Concrete fixtures used in example theorems -/

/-- A stand-in for `auth.get_password_hash` in concrete examples. -/
def hashDemo (s : String) : String := s ++ "#h"

/-- A concrete stored user. -/
def bobUser : User :=
  { id := 0, email := "b@x.com", username := "bob",
    hashed_password := "pw#h", is_active := true }

/-- A concrete stored user. -/
def annUser : User :=
  { id := 0, email := "e@x.com", username := "ann",
    hashed_password := "q", is_active := true }

/-- The user persisted by the example signup of "carol". -/
def carolUser : User :=
  { id := 1, email := "c@x.com", username := "carol",
    hashed_password := "pw3#h", is_active := true }

/-! ## Helper lemmas -/

theorem dropWhile_head_false {α : Type} (p : α → Bool) (l : List α) (c : α)
    (cs : List α) (h : l.dropWhile p = c :: cs) : p c = false := by
  induction l with
  | nil => simp [List.dropWhile] at h
  | cons a as ih =>
    rw [List.dropWhile_cons] at h
    by_cases hpa : p a = true
    · rw [if_pos hpa] at h
      exact ih h
    · rw [if_neg hpa] at h
      injection h with h1 _
      subst h1
      simp only [Bool.not_eq_true] at hpa
      exact hpa

theorem stripChars_head_false (l : List Char) (c : Char) (cs : List Char)
    (h : stripChars l = c :: cs) : isSpaceChar c = false :=
  dropWhile_head_false isSpaceChar _ c cs (by simpa [stripChars] using h)

theorem goodName_pyStrip (s : String) (h : strippedEmpty s = false) :
    goodName (pyStrip s) = true := by
  unfold strippedEmpty at h
  cases hs : stripChars s.data with
  | nil => rw [hs] at h; simp at h
  | cons c cs =>
    have hc := stripChars_head_false _ _ _ hs
    unfold goodName pyStrip
    rw [hs]
    simp [hc]

theorem rowToCreate_of_name_missing (row : Row) (hg : rowGet row "name" = none) :
    rowToCreate row = .error nameRequiredError := by
  unfold rowToCreate
  rw [hg]

theorem rowToCreate_of_name_cell_none (row : Row)
    (hg : rowGet row "name" = some none) :
    rowToCreate row = .error noneStripError := by
  unfold rowToCreate
  rw [hg]

theorem rowToCreate_of_name_some (row : Row) (nm : String)
    (hg : rowGet row "name" = some (some nm)) :
    rowToCreate row =
      (if strippedEmpty nm then .error nameRequiredError
       else if cellNone (rowGet row "position") || cellNone (rowGet row "team") ||
           cellNone (rowGet row "age") || cellNone (rowGet row "jersey_number") then
         .error noneStripError
       else .ok (rowCreate row nm)) := by
  unfold rowToCreate
  rw [hg]

theorem rowToCreate_goodName (row : Row) (pc : PlayerCreate)
    (h : rowToCreate row = .ok pc) : goodName pc.name = true := by
  cases hg : rowGet row "name" with
  | none =>
    rw [rowToCreate_of_name_missing row hg] at h
    cases h
  | some cell =>
    cases cell with
    | none =>
      rw [rowToCreate_of_name_cell_none row hg] at h
      cases h
    | some nm =>
      rw [rowToCreate_of_name_some row nm hg] at h
      by_cases hse : strippedEmpty nm = true
      · rw [if_pos hse] at h
        cases h
      · rw [if_neg hse] at h
        by_cases hcn : (cellNone (rowGet row "position") || cellNone (rowGet row "team") ||
            cellNone (rowGet row "age") || cellNone (rowGet row "jersey_number")) = true
        · rw [if_pos hcn] at h
          cases h
        · rw [if_neg hcn] at h
          injection h with h1
          rw [← h1]
          exact goodName_pyStrip nm (by simpa using hse)

theorem NamesOk_create (db : PlayerStore) (pc : PlayerCreate)
    (h : NamesOk db = true) (hn : goodName pc.name = true) :
    NamesOk (create_player db pc).2 = true := by
  unfold NamesOk create_player at *
  simp only [List.all_append, List.all_cons, List.all_nil, Bool.and_true,
    Bool.and_eq_true] at *
  exact ⟨h, hn⟩

theorem processRows_NamesOk (rows : List Row) : ∀ (db : PlayerStore) (acc : List Player),
    NamesOk db = true →
    (∀ ps db', processRows db rows acc = .ok (ps, db') → NamesOk db' = true)
    ∧ (∀ e db', processRows db rows acc = .error (e, db') → NamesOk db' = true) := by
  induction rows with
  | nil =>
    intro db acc h
    refine ⟨fun ps db' hok => ?_, fun e db' herr => ?_⟩
    · rw [processRows] at hok
      injection hok with h1
      injection h1 with _ h2
      exact h2 ▸ h
    · rw [processRows] at herr
      cases herr
  | cons r rs ih =>
    intro db acc h
    rw [processRows]
    cases hr : processRow db r with
    | error e =>
      refine ⟨fun ps db' hok => ?_, fun e' db' herr => ?_⟩
      · cases hok
      · injection herr with h1
        injection h1 with _ h2
        exact h2 ▸ h
    | ok pdb =>
      have h2 : NamesOk pdb.2 = true := by
        unfold processRow at hr
        cases hc : rowToCreate r with
        | error e => rw [hc] at hr; cases hr
        | ok pc =>
          rw [hc] at hr
          injection hr with h1
          exact h1 ▸ NamesOk_create db pc h (rowToCreate_goodName r pc hc)
      exact ih pdb.2 (acc ++ [pdb.1]) h2

/-- C1: the Player Store name invariant ("name is never empty/whitespace-only")
is enforced by the CSV import: starting from a store satisfying it, the store
after `upload_players_csv` — whether the import succeeds or aborts — still
satisfies it.  (As amended: `create_player` and `update_player` perform no name
validation, so only the CSV import maintains the invariant.) -/
theorem c1_csv_import_preserves_name_invariant (db : PlayerStore)
    (filename content : String) (h : NamesOk db = true) :
    (∀ ps db', upload_players_csv db filename content = .ok (ps, db') → NamesOk db' = true)
    ∧ (∀ e db', upload_players_csv db filename content = .error (e, db') → NamesOk db' = true) := by
  unfold upload_players_csv
  split
  · refine ⟨fun ps db' hok => ?_, fun e db' herr => ?_⟩
    · cases hok
    · injection herr with h1
      injection h1 with _ h2
      exact h2 ▸ h
  · obtain ⟨hok, herr⟩ := processRows_NamesOk (parseCSV content) db [] h
    cases hp : processRows db (parseCSV content) [] with
    | error edb =>
      obtain ⟨e0, db0⟩ := edb
      refine ⟨fun ps db' h1 => ?_, fun e db' h1 => ?_⟩
      · cases h1
      · injection h1 with h2
        injection h2 with _ h3
        exact h3 ▸ herr e0 db0 hp
    | ok r =>
      obtain ⟨ps0, db0⟩ := r
      refine ⟨fun ps db' h1 => ?_, fun e db' h1 => ?_⟩
      · injection h1 with h2
        injection h2 with _ h3
        exact h3 ▸ hok ps0 db0 hp
      · cases h1

/-- C3: for an id present in the store, `update_player` returns the stored
player with exactly the supplied fields overwritten: every field supplied in
the request takes the supplied value, every unsupplied field keeps its prior
value, and only the row with the given id changes in the store; for an
absent id it fails with 404. -/
theorem c3_update_overwrites_exactly_supplied_fields (db : PlayerStore)
    (pid : Nat) (u : PlayerUpdate) :
    (read_player db pid = .error ⟨404, "Player not found"⟩ →
      update_player db pid u = .error ⟨404, "Player not found"⟩)
    ∧ (∀ p, read_player db pid = .ok p →
        update_player db pid u =
          .ok (applyUpdate p u,
            { db with players :=
                db.players.map (fun q => if q.id == pid then applyUpdate p u else q) })
        ∧ (u.name = none → (applyUpdate p u).name = p.name)
        ∧ (u.position = none → (applyUpdate p u).position = p.position)
        ∧ (u.team = none → (applyUpdate p u).team = p.team)
        ∧ (u.age = none → (applyUpdate p u).age = p.age)
        ∧ (u.jersey_number = none → (applyUpdate p u).jersey_number = p.jersey_number)
        ∧ (∀ v, u.name = some v → (applyUpdate p u).name = v)
        ∧ (∀ v, u.position = some v → (applyUpdate p u).position = v)
        ∧ (∀ v, u.team = some v → (applyUpdate p u).team = v)
        ∧ (∀ v, u.age = some v → (applyUpdate p u).age = v)
        ∧ (∀ v, u.jersey_number = some v → (applyUpdate p u).jersey_number = v)) := by
  constructor
  · intro hnf
    unfold read_player at hnf
    unfold update_player
    cases hf : db.players.find? (fun p => p.id == pid) with
    | none => rfl
    | some q => rw [hf] at hnf; cases hnf
  · intro p hp
    unfold read_player at hp
    unfold update_player
    cases hf : db.players.find? (fun q => q.id == pid) with
    | none => rw [hf] at hp; cases hp
    | some q =>
      rw [hf] at hp
      injection hp with h1
      subst h1
      refine ⟨rfl, ?_, ?_, ?_, ?_, ?_, ?_, ?_, ?_, ?_, ?_⟩
      · intro h; simp [applyUpdate, h]
      · intro h; simp [applyUpdate, h]
      · intro h; simp [applyUpdate, h]
      · intro h; simp [applyUpdate, h]
      · intro h; simp [applyUpdate, h]
      · intro v h; simp [applyUpdate, h]
      · intro v h; simp [applyUpdate, h]
      · intro v h; simp [applyUpdate, h]
      · intro v h; simp [applyUpdate, h]
      · intro v h; simp [applyUpdate, h]

/-- C3 witness: updating only `team` on a concrete stored player changes
`team` to "X" and leaves the other four fields at their prior values. -/
theorem c3_witness :
    update_player
        (⟨[{ id := 0, name := "Alice", position := some "Forward",
             team := some "Old", age := some 30, jersey_number := some 9 }], 1⟩ : PlayerStore)
        0 { team := some (some "X") } =
      .ok ({ id := 0, name := "Alice", position := some "Forward",
             team := some "X", age := some 30, jersey_number := some 9 },
        ⟨[{ id := 0, name := "Alice", position := some "Forward",
            team := some "X", age := some 30, jersey_number := some 9 }], 1⟩)
    ∧ (applyUpdate
        { id := 0, name := "Alice", position := some "Forward",
          team := some "Old", age := some 30, jersey_number := some 9 }
        { team := some (some "X") }).name = "Alice" := by
  obtain ⟨heq, hname, _, _, _, _⟩ :=
    (c3_update_overwrites_exactly_supplied_fields
        (⟨[{ id := 0, name := "Alice", position := some "Forward",
             team := some "Old", age := some 30, jersey_number := some 9 }], 1⟩ : PlayerStore)
        0 { team := some (some "X") }).2
      { id := 0, name := "Alice", position := some "Forward",
        team := some "Old", age := some 30, jersey_number := some 9 } rfl
  exact ⟨heq, hname rfl⟩

/-- C7: for an id present in the store, `delete_player` succeeds, removing
the row, and a subsequent `read_player` of that id fails with 404; for an
absent id, `delete_player` itself fails with 404. -/
theorem c7_delete_then_get_not_found (db : PlayerStore) (pid : Nat) :
    (read_player db pid = .error ⟨404, "Player not found"⟩ →
      delete_player db pid = .error ⟨404, "Player not found"⟩)
    ∧ (∀ p, read_player db pid = .ok p →
        delete_player db pid =
          .ok { db with players := db.players.filter (fun q => !(q.id == pid)) }
        ∧ read_player
            { db with players := db.players.filter (fun q => !(q.id == pid)) } pid =
          .error ⟨404, "Player not found"⟩) := by
  constructor
  · intro hnf
    unfold read_player at hnf
    unfold delete_player
    cases hf : db.players.find? (fun p => p.id == pid) with
    | none => rfl
    | some q => rw [hf] at hnf; cases hnf
  · intro p hp
    unfold read_player at hp
    unfold delete_player
    cases hf : db.players.find? (fun q => q.id == pid) with
    | none => rw [hf] at hp; cases hp
    | some q =>
      refine ⟨rfl, ?_⟩
      unfold read_player
      have hnone : (db.players.filter (fun q => !(q.id == pid))).find?
          (fun q => q.id == pid) = none := by
        rw [List.find?_eq_none]
        intro x hx
        have := (List.mem_filter.mp hx).2
        simp only [Bool.not_eq_true'] at this
        simp [this]
      rw [hnone]

/-- C7 witness: deleting the only stored player succeeds, and fetching it
afterward (and deleting from the emptied store) fails with 404. -/
theorem c7_witness :
    delete_player (⟨[{ id := 0, name := "Alice" }], 1⟩ : PlayerStore) 0 =
      .ok (⟨[], 1⟩ : PlayerStore)
    ∧ read_player (⟨[], 1⟩ : PlayerStore) 0 = .error ⟨404, "Player not found"⟩
    ∧ delete_player (⟨[], 1⟩ : PlayerStore) 0 = .error ⟨404, "Player not found"⟩ := by
  obtain ⟨hdel, hget⟩ :=
    (c7_delete_then_get_not_found (⟨[{ id := 0, name := "Alice" }], 1⟩ : PlayerStore) 0).2
      { id := 0, name := "Alice" } rfl
  exact ⟨hdel, hget,
    (c7_delete_then_get_not_found (⟨[], 1⟩ : PlayerStore) 0).1 rfl⟩

/-- C4: signup fails with 400 exactly when the requested username is already
stored, and the failing call leaves the store unchanged (no second user row);
otherwise it persists exactly one new user whose password is hashed and whose
is_active flag is true. -/
theorem c4_signup_duplicate_username (hash : String → String) (db : UserStore)
    (email username password : String) :
    ((∃ u ∈ db.users, u.username = username) →
      signup hash db email username password =
        .error (⟨400, "Username already registered"⟩, db))
    ∧ ((∀ u ∈ db.users, u.username ≠ username) →
      signup hash db email username password =
        .ok ({ id := db.nextId, email := email, username := username,
               hashed_password := hash password, is_active := true },
          { users := db.users ++
              [{ id := db.nextId, email := email, username := username,
                 hashed_password := hash password, is_active := true }],
            nextId := db.nextId + 1 })) := by
  constructor
  · rintro ⟨u, hu, hname⟩
    unfold signup
    cases hf : get_user db username with
    | none =>
      unfold get_user at hf
      exact absurd (by simp [hname]) (List.find?_eq_none.mp hf u hu)
    | some w => rfl
  · intro hfresh
    unfold signup
    cases hf : get_user db username with
    | none => rfl
    | some w =>
      unfold get_user at hf
      have hw := List.find?_some hf
      have hmem := List.mem_of_find?_eq_some hf
      exact absurd (by simpa using hw) (hfresh w hmem)

/-- C4 witness: with user "bob" stored, signing up as "bob" fails with 400
and leaves the one-user store unchanged, while signing up as "carol"
persists a second user with hashed password and is_active = true. -/
theorem c4_witness :
    signup hashDemo (⟨[bobUser], 1⟩ : UserStore) "b2@x.com" "bob" "pw2" =
      .error (⟨400, "Username already registered"⟩, ⟨[bobUser], 1⟩)
    ∧ signup hashDemo (⟨[bobUser], 1⟩ : UserStore) "c@x.com" "carol" "pw3" =
      .ok (carolUser, ⟨[bobUser, carolUser], 2⟩) := by
  constructor
  · exact (c4_signup_duplicate_username hashDemo ⟨[bobUser], 1⟩ "b2@x.com" "bob" "pw2").1
      ⟨bobUser, by simp, rfl⟩
  · exact (c4_signup_duplicate_username hashDemo ⟨[bobUser], 1⟩ "c@x.com" "carol" "pw3").2
      (by decide)

/-- C9: signup deduplicates on username only: starting from a store already
holding a user with the requested email, a signup with a fresh username and
that same email succeeds, and the resulting store holds at least two users
with that email. -/
theorem c9_signup_allows_duplicate_email (hash : String → String) (db : UserStore)
    (email username password : String)
    (hdup : db.users.filter (fun u => u.email == email) ≠ [])
    (hfresh : ∀ u ∈ db.users, u.username ≠ username) :
    ∃ u db', signup hash db email username password = .ok (u, db')
      ∧ u.email = email
      ∧ 2 ≤ (db'.users.filter (fun u => u.email == email)).length := by
  refine ⟨_, _,
    (c4_signup_duplicate_username hash db email username password).2 hfresh, rfl, ?_⟩
  have hpos : 0 < (db.users.filter (fun u => u.email == email)).length :=
    List.length_pos.mpr hdup
  simp only [List.filter_append, List.length_append]
  have hone : (List.filter (fun u : User => u.email == email)
      ([{ id := db.nextId, email := email, username := username,
          hashed_password := hash password, is_active := true }] : List User)).length = 1 := by
    simp
  omega

/-- C9 witness: with "ann" stored under email "e@x.com", signing up "nina"
with the same email succeeds and the store then holds two users with that
email. -/
theorem c9_witness :
    ∃ (u : User) (db' : UserStore),
      signup hashDemo (⟨[annUser], 1⟩ : UserStore) "e@x.com" "nina" "pw" = .ok (u, db')
      ∧ u.email = "e@x.com"
      ∧ 2 ≤ (db'.users.filter (fun v => v.email == "e@x.com")).length :=
  c9_signup_allows_duplicate_email hashDemo ⟨[annUser], 1⟩ "e@x.com" "nina" "pw"
    (by decide) (by decide)

theorem nameBad_false_elim (row : Row) (h : nameBad row = false) :
    ∃ nm, rowGet row "name" = some (some nm) ∧ strippedEmpty nm = false := by
  unfold nameBad at h
  cases hg : rowGet row "name" with
  | none => rw [hg] at h; cases h
  | some cell =>
    cases cell with
    | none => rw [hg] at h; cases h
    | some nm => rw [hg] at h; exact ⟨nm, rfl, h⟩

/-- C5: a CSV row whose name is usable and whose checked cells are actual
strings (no restval-None among the five recognised fields, as in every
full-length row) never fails on its optional integer fields: the row is
inserted and committed, and whenever every supplied `age` (resp.
`jersey_number`) string fails integer parsing, the inserted player has that
field unset. -/
theorem c5_unparsable_int_field_is_omitted (db : PlayerStore) (row : Row)
    (hname : nameBad row = false)
    (hcells : cellNone (rowGet row "position") = false ∧
      cellNone (rowGet row "team") = false ∧
      cellNone (rowGet row "age") = false ∧
      cellNone (rowGet row "jersey_number") = false) :
    ∃ p, processRow db row =
        .ok (p, { players := db.players ++ [p], nextId := db.nextId + 1 })
      ∧ ((∀ v, rowGet row "age" = some (some v) → pyInt v = none) → p.age = none)
      ∧ ((∀ v, rowGet row "jersey_number" = some (some v) → pyInt v = none) →
          p.jersey_number = none) := by
  obtain ⟨nm, hg, hse⟩ := nameBad_false_elim row hname
  obtain ⟨hc1, hc2, hc3, hc4⟩ := hcells
  have hrc := rowToCreate_of_name_some row nm hg
  rw [if_neg (by simp [hse]), if_neg (by simp [hc1, hc2, hc3, hc4])] at hrc
  refine ⟨{ id := db.nextId, name := pyStrip nm,
            position := optStrVal (rowGet row "position"),
            team := optStrVal (rowGet row "team"),
            age := optIntVal (rowGet row "age"),
            jersey_number := optIntVal (rowGet row "jersey_number") }, ?_, ?_, ?_⟩
  · unfold processRow
    rw [hrc]
    rfl
  · intro hage
    show optIntVal (rowGet row "age") = none
    cases ha : rowGet row "age" with
    | none => rfl
    | some cell =>
      cases cell with
      | none =>
        rw [ha] at hc3
        cases hc3
      | some v =>
        show (if strippedEmpty v then none else pyInt v) = none
        by_cases he : strippedEmpty v = true
        · rw [if_pos he]
        · rw [if_neg he]
          exact hage v ha
  · intro hjer
    show optIntVal (rowGet row "jersey_number") = none
    cases hj : rowGet row "jersey_number" with
    | none => rfl
    | some cell =>
      cases cell with
      | none =>
        rw [hj] at hc4
        cases hc4
      | some v =>
        show (if strippedEmpty v then none else pyInt v) = none
        by_cases he : strippedEmpty v = true
        · rw [if_pos he]
        · rw [if_neg he]
          exact hjer v hj

/-- C5 witness: importing the row `name=Bob, age=notanumber` inserts Bob
with `age` unset. -/
theorem c5_witness :
    ∃ p, processRow PlayerStore.empty
        [("name", some "Bob"), ("age", some "notanumber")] =
        .ok (p, (⟨[p], 1⟩ : PlayerStore))
      ∧ p.age = none := by
  obtain ⟨p, h1, h2, _⟩ := c5_unparsable_int_field_is_omitted PlayerStore.empty
    [("name", some "Bob"), ("age", some "notanumber")] (by decide)
    ⟨by decide, by decide, by decide, by decide⟩
  refine ⟨p, h1, h2 ?_⟩
  intro v hv
  rw [show rowGet [("name", some "Bob"), ("age", some "notanumber")] "age" =
        some (some "notanumber") from rfl] at hv
  injection hv with hv1
  injection hv1 with hv2
  subst hv2
  decide

/-- C1 (counterexample to the claim as stated): `create_player` accepts an
empty name, so the store reached by creating a player named `""` violates
the invariant. -/
theorem c1_counterexample :
    NamesOk (create_player PlayerStore.empty { name := "" }).2 = false := by decide

/-- C1 witness: the invariant holds of the empty store, and still holds of
the store left by the aborting spec-example import (which commits Alice). -/
theorem c1_witness :
    NamesOk PlayerStore.empty = true ∧
    NamesOk (⟨[{ id := 0, name := "Alice", position := some "Forward" }], 1⟩ : PlayerStore) = true :=
  ⟨by decide,
    (c1_csv_import_preserves_name_invariant PlayerStore.empty "players.csv"
        "name,position\nAlice,Forward\n,Guard" (by decide)).2
      ⟨400, "Error processing CSV file: 400: Name field is required"⟩
      ⟨[{ id := 0, name := "Alice", position := some "Forward" }], 1⟩ rfl⟩

/-! ## Row-loop lemmas for the CSV import -/

theorem rowOk_elim (row : Row) (h : rowOk row = true) :
    ∃ pc, rowToCreate row = .ok pc := by
  unfold rowOk at h
  cases hrc : rowToCreate row with
  | ok pc => exact ⟨pc, rfl⟩
  | error e => rw [hrc] at h; cases h

theorem nameBad_true_error (row : Row) (h : nameBad row = true) :
    ∃ e, rowToCreate row = .error e ∧
      (e = nameRequiredError ∨ e = noneStripError) := by
  unfold nameBad at h
  cases hg : rowGet row "name" with
  | none => exact ⟨nameRequiredError, rowToCreate_of_name_missing row hg, Or.inl rfl⟩
  | some cell =>
    cases cell with
    | none => exact ⟨noneStripError, rowToCreate_of_name_cell_none row hg, Or.inr rfl⟩
    | some nm =>
      rw [hg] at h
      refine ⟨nameRequiredError, ?_, Or.inl rfl⟩
      rw [rowToCreate_of_name_some row nm hg, if_pos h]

theorem processRow_ok (db : PlayerStore) (row : Row) (pc : PlayerCreate)
    (h : rowToCreate row = .ok pc) :
    processRow db row = .ok (create_player db pc) := by
  unfold processRow
  rw [h]

theorem processRow_err (db : PlayerStore) (row : Row) (e : HTTPError)
    (h : rowToCreate row = .error e) :
    processRow db row = .error e := by
  unfold processRow
  rw [h]

theorem insertAll_cons (db : PlayerStore) (r : Row) (rs : List Row) :
    insertAll db (r :: rs) =
      match rowToCreate r with
      | .error _ => db
      | .ok pc => insertAll (create_player db pc).2 rs := rfl

theorem newPlayers_cons (db : PlayerStore) (r : Row) (rs : List Row) :
    newPlayers db (r :: rs) =
      match rowToCreate r with
      | .error _ => []
      | .ok pc =>
        (create_player db pc).1 :: newPlayers (create_player db pc).2 rs := rfl

theorem insertAll_cons_ok (db : PlayerStore) (r : Row) (rs : List Row)
    (pc : PlayerCreate) (h : rowToCreate r = .ok pc) :
    insertAll db (r :: rs) = insertAll (create_player db pc).2 rs := by
  rw [insertAll_cons, h]

theorem newPlayers_cons_ok (db : PlayerStore) (r : Row) (rs : List Row)
    (pc : PlayerCreate) (h : rowToCreate r = .ok pc) :
    newPlayers db (r :: rs) =
      (create_player db pc).1 :: newPlayers (create_player db pc).2 rs := by
  rw [newPlayers_cons, h]

theorem processRows_append_ok (pre : List Row) :
    ∀ (db : PlayerStore) (acc : List Player) (rows : List Row),
      (∀ r ∈ pre, rowOk r = true) →
      processRows db (pre ++ rows) acc =
        processRows (insertAll db pre) rows (acc ++ newPlayers db pre) := by
  induction pre with
  | nil =>
    intro db acc rows _
    show processRows db rows acc = processRows (insertAll db []) rows (acc ++ newPlayers db [])
    rw [insertAll, newPlayers, List.append_nil]
  | cons r rs ih =>
    intro db acc rows h
    obtain ⟨pc, hpc⟩ := rowOk_elim r (h r (List.mem_cons_self r rs))
    calc processRows db ((r :: rs) ++ rows) acc
        = processRows (create_player db pc).2 (rs ++ rows)
            (acc ++ [(create_player db pc).1]) := by
          rw [List.cons_append, processRows, processRow_ok db r pc hpc]
      _ = processRows (insertAll (create_player db pc).2 rs) rows
            ((acc ++ [(create_player db pc).1]) ++
              newPlayers (create_player db pc).2 rs) :=
          ih _ _ rows (fun x hx => h x (List.mem_cons_of_mem r hx))
      _ = processRows (insertAll db (r :: rs)) rows (acc ++ newPlayers db (r :: rs)) := by
          rw [insertAll_cons_ok db r rs pc hpc, newPlayers_cons_ok db r rs pc hpc,
            List.append_assoc]
          rfl

theorem processRows_err_head (db : PlayerStore) (bad : Row) (rest : List Row)
    (acc : List Player) (e : HTTPError) (hbad : rowToCreate bad = .error e) :
    processRows db (bad :: rest) acc = .error (e, db) := by
  rw [processRows, processRow_err db bad e hbad]

theorem insertAll_players (pre : List Row) : ∀ (db : PlayerStore),
    (∀ r ∈ pre, rowOk r = true) →
    (insertAll db pre).players = db.players ++ newPlayers db pre := by
  induction pre with
  | nil =>
    intro db _
    show (insertAll db []).players = db.players ++ newPlayers db []
    rw [insertAll, newPlayers, List.append_nil]
  | cons r rs ih =>
    intro db h
    obtain ⟨pc, hpc⟩ := rowOk_elim r (h r (List.mem_cons_self r rs))
    rw [insertAll_cons_ok db r rs pc hpc, newPlayers_cons_ok db r rs pc hpc,
      ih _ (fun x hx => h x (List.mem_cons_of_mem r hx))]
    show (create_player db pc).2.players ++ _ = _
    simp [create_player]

theorem IdsOk_create (db : PlayerStore) (pc : PlayerCreate) (h : IdsOk db) :
    IdsOk (create_player db pc).2 := by
  obtain ⟨hlt, hpw⟩ := h
  constructor
  · intro p hp
    simp only [create_player, List.mem_append, List.mem_singleton] at hp
    rcases hp with hp | rfl
    · exact Nat.lt_succ_of_lt (hlt p hp)
    · exact Nat.lt_succ_self _
  · show ((db.players ++ [_]).Pairwise _)
    rw [List.pairwise_append]
    refine ⟨hpw, by simp, ?_⟩
    intro a ha b hb
    rw [List.mem_singleton] at hb
    subst hb
    exact Nat.ne_of_lt (hlt a ha)

theorem IdsOk_insertAll (pre : List Row) : ∀ db, IdsOk db → IdsOk (insertAll db pre) := by
  induction pre with
  | nil => intro db h; exact h
  | cons r rs ih =>
    intro db h
    rw [insertAll_cons]
    cases rowToCreate r with
    | error e => exact h
    | ok pc => exact ih _ (IdsOk_create db pc h)

theorem find?_id_of_pairwise (l : List Player)
    (hpw : l.Pairwise (fun a b => a.id ≠ b.id)) :
    ∀ p ∈ l, l.find? (fun q => q.id == p.id) = some p := by
  induction l with
  | nil => intro p hp; cases hp
  | cons a as ih =>
    intro p hp
    rcases List.mem_cons.mp hp with rfl | hp'
    · rw [List.find?_cons_of_pos _ (by simp)]
    · have ha : a.id ≠ p.id := (List.pairwise_cons.mp hpw).1 p hp'
      rw [List.find?_cons_of_neg _ (by simp [ha])]
      exact ih (List.pairwise_cons.mp hpw).2 p hp'

theorem read_player_of_mem (db : PlayerStore)
    (hpw : db.players.Pairwise (fun a b => a.id ≠ b.id)) :
    ∀ p ∈ db.players, read_player db p.id = .ok p := by
  intro p hp
  unfold read_player
  rw [find?_id_of_pairwise db.players hpw p hp]

/-- C2: an import whose parsed records are an error-free prefix followed by
a record whose name field is absent or empty/whitespace aborts with the
wrapped error of that record; the store after the call holds exactly the
prior players plus the players created from the prefix (the failing row and
everything after it are not inserted), and each newly committed player stays
queryable by id. -/
theorem c2_csv_abort_keeps_committed_prefix (db : PlayerStore)
    (filename content : String) (pre : List Row) (bad : Row) (rest : List Row)
    (hfn : strEndsWith filename ".csv" = true)
    (hids : IdsOk db)
    (hsplit : parseCSV content = pre ++ bad :: rest)
    (hpre : ∀ r ∈ pre, rowOk r = true)
    (hbad : nameBad bad = true) :
    (∃ e, rowToCreate bad = .error e ∧
      upload_players_csv db filename content =
        .error (wrapCsvError e, insertAll db pre))
    ∧ (insertAll db pre).players = db.players ++ newPlayers db pre
    ∧ ∀ p ∈ newPlayers db pre, read_player (insertAll db pre) p.id = .ok p := by
  obtain ⟨e, he, -⟩ := nameBad_true_error bad hbad
  have hrows : processRows db (parseCSV content) [] =
      .error (e, insertAll db pre) := by
    rw [hsplit, processRows_append_ok pre db [] (bad :: rest) hpre,
      processRows_err_head _ _ _ _ e he]
  refine ⟨⟨e, he, ?_⟩, insertAll_players pre db hpre, ?_⟩
  · unfold upload_players_csv
    rw [if_neg (by simp [hfn]), hrows]
  · intro p hp
    apply read_player_of_mem _ (IdsOk_insertAll pre db hids).2 p
    rw [insertAll_players pre db hpre]
    exact List.mem_append_right _ hp

/-- C2 witness: importing `name,position\nAlice,Forward\n,Guard` into the
empty store aborts with the wrapped name error, the store afterward holds
exactly Alice, and Alice is still queryable by id. -/
theorem c2_witness :
    upload_players_csv PlayerStore.empty "players.csv"
        "name,position\nAlice,Forward\n,Guard" =
      .error (wrapCsvError nameRequiredError,
        (⟨[{ id := 0, name := "Alice", position := some "Forward" }], 1⟩ : PlayerStore))
    ∧ (⟨[{ id := 0, name := "Alice", position := some "Forward" }], 1⟩ : PlayerStore).players =
        [] ++ [{ id := 0, name := "Alice", position := some "Forward" }]
    ∧ ∀ p ∈ [({ id := 0, name := "Alice", position := some "Forward" } : Player)],
        read_player (⟨[{ id := 0, name := "Alice", position := some "Forward" }], 1⟩ : PlayerStore)
          p.id = .ok p := by
  obtain ⟨⟨e, he, hup⟩, hpl, hq⟩ :=
    c2_csv_abort_keeps_committed_prefix PlayerStore.empty "players.csv"
      "name,position\nAlice,Forward\n,Guard"
      [[("name", some "Alice"), ("position", some "Forward")]]
      [("name", some ""), ("position", some "Guard")] []
      (by decide)
      ⟨fun p hp => absurd hp (List.not_mem_nil p), List.Pairwise.nil⟩
      (by decide)
      (by decide)
      (by decide)
  have hb : (Except.error nameRequiredError : Except HTTPError PlayerCreate) = .error e :=
    (rfl : rowToCreate [("name", some ""), ("position", some "Guard")] =
      .error nameRequiredError).symm.trans he
  injection hb with hbe
  subst hbe
  exact ⟨hup, hpl, hq⟩

/-- A short row's missing fields become DictReader's restval `None`, on
which the handler's `.strip()` raises: importing `name,age\nAlice\n,`
aborts at the Alice row and commits nothing. -/
theorem short_row_aborts_import :
    upload_players_csv PlayerStore.empty "players.csv" "name,age\nAlice\n," =
      .error (wrapCsvError noneStripError, PlayerStore.empty) := rfl

/-! ## Segment-containment lemmas for search -/

theorem segAt_iff (n : List Char) : ∀ h, segAt n h = true ↔ ∃ r, h = n ++ r := by
  induction n with
  | nil =>
    intro h
    constructor
    · intro _
      exact ⟨h, rfl⟩
    · intro _
      rfl
  | cons a as ih =>
    intro h
    cases h with
    | nil =>
      constructor
      · intro hseg
        simp [segAt] at hseg
      · rintro ⟨r, hr⟩
        simp at hr
    | cons b bs =>
      constructor
      · intro hseg
        have hab : (a == b && segAt as bs) = true := hseg
        rw [Bool.and_eq_true, beq_iff_eq] at hab
        obtain ⟨rfl, h2⟩ := hab
        obtain ⟨r, rfl⟩ := (ih bs).mp h2
        exact ⟨r, rfl⟩
      · rintro ⟨r, hr⟩
        injection hr with h1 h2
        show (a == b && segAt as bs) = true
        rw [Bool.and_eq_true, beq_iff_eq]
        exact ⟨h1.symm, (ih bs).mpr ⟨r, h2⟩⟩

theorem hasSeg_iff (n : List Char) : ∀ h, hasSeg n h = true ↔ ∃ l r, h = (l ++ n) ++ r := by
  intro h
  induction h with
  | nil =>
    rw [show hasSeg n [] = segAt n [] from rfl, segAt_iff n []]
    constructor
    · rintro ⟨r, hr⟩
      exact ⟨[], r, by simpa using hr⟩
    · rintro ⟨l, r, hlr⟩
      have h0 := hlr.symm
      simp only [List.append_eq_nil] at h0
      obtain ⟨⟨hl, hn⟩, hr⟩ := h0
      subst hn
      exact ⟨r, by simp [hr]⟩
  | cons c rest ih =>
    rw [show hasSeg n (c :: rest) = (segAt n (c :: rest) || hasSeg n rest) from rfl,
      Bool.or_eq_true, segAt_iff n (c :: rest), ih]
    constructor
    · rintro (⟨r, hr⟩ | ⟨l, r, hlr⟩)
      · exact ⟨[], r, by simpa using hr⟩
      · exact ⟨c :: l, r, by simp [hlr]⟩
    · rintro ⟨l, r, hlr⟩
      cases l with
      | nil => exact Or.inl ⟨r, by simpa using hlr⟩
      | cons x xs =>
        right
        injection hlr with h1 h2
        exact ⟨xs, r, h2⟩

theorem hasSeg_nil (h : List Char) : hasSeg [] h = true := by
  cases h with
  | nil => rfl
  | cons c rest => rfl

theorem containsCI_empty (hay : String) : containsCI hay "" = true :=
  hasSeg_nil (lowerChars hay.data)

/-! ## LIKE-matcher lemmas for search -/

theorem likeMatch_cons (p : Char) (ps s : List Char) :
    likeMatch (p :: ps) s =
      if p == '%' then (sufxs s).any (fun t => likeMatch ps t)
      else match s with
        | [] => false
        | c :: s' => (p == '_' || p == c) && likeMatch ps s' := rfl

theorem nil_mem_sufxs (s : List Char) : [] ∈ sufxs s := by
  induction s with
  | nil => exact List.mem_singleton.mpr rfl
  | cons c cs ih => exact List.mem_cons_of_mem _ ih

theorem likeMatch_percent_nil (s : List Char) : likeMatch ['%'] s = true := by
  rw [likeMatch_cons, if_pos (show (('%' == '%') = true) from rfl), List.any_eq_true]
  exact ⟨[], nil_mem_sufxs s, rfl⟩

theorem likeMatch_lit_percent (n : List Char) (hn : ∀ c ∈ n, c ≠ '%' ∧ c ≠ '_') :
    ∀ s, likeMatch (n ++ ['%']) s = segAt n s := by
  induction n with
  | nil =>
    intro s
    rw [List.nil_append, likeMatch_percent_nil]
    rfl
  | cons a n' ih =>
    intro s
    obtain ⟨ha1, ha2⟩ := hn a (List.mem_cons_self a n')
    rw [List.cons_append, likeMatch_cons, if_neg (by simp [ha1])]
    cases s with
    | nil => rfl
    | cons c s' =>
      show ((a == '_' || a == c) && likeMatch (n' ++ ['%']) s') = segAt (a :: n') (c :: s')
      rw [ih (fun x hx => hn x (List.mem_cons_of_mem a hx)) s']
      show ((a == '_' || a == c) && segAt n' s') = (a == c && segAt n' s')
      have h2 : (a == '_') = false := by simp [ha2]
      rw [h2, Bool.false_or]

theorem hasSeg_eq_any_segAt (n : List Char) :
    ∀ s, hasSeg n s = (sufxs s).any (fun t => segAt n t) := by
  intro s
  induction s with
  | nil =>
    show segAt n [] = (segAt n [] || false)
    rw [Bool.or_false]
  | cons c rest ih =>
    show (segAt n (c :: rest) || hasSeg n rest) =
      (segAt n (c :: rest) || (sufxs rest).any (fun t => segAt n t))
    rw [ih]

theorem ilikeContains_eq_containsCI (hay needle : String)
    (hn : ∀ c ∈ lowerChars needle.data, c ≠ '%' ∧ c ≠ '_') :
    ilikeContains hay needle = containsCI hay needle := by
  unfold ilikeContains ilikePattern containsCI
  rw [likeMatch_cons, if_pos (show (('%' == '%') = true) from rfl)]
  have hcong : (fun t => likeMatch (lowerChars needle.data ++ ['%']) t) =
      (fun t => segAt (lowerChars needle.data) t) :=
    funext (fun t => likeMatch_lit_percent (lowerChars needle.data) hn t)
  rw [hcong, ← hasSeg_eq_any_segAt]

theorem ilikeContains_empty (hay : String) : ilikeContains hay "" = true := by
  rw [ilikeContains_eq_containsCI hay ""
    (by intro c hc; exact absurd hc (List.not_mem_nil c))]
  exact containsCI_empty hay

/-- C6 (amended): a successful search returns exactly the non-empty
`skip`/`limit` page, in store order, of the stored players whose name
matches the unescaped case-insensitive LIKE pattern `%name%` (so `%` and `_`
in the search string act as wildcards); when no stored player matches, the
search fails with 404; and for a search string none of whose (lowercased)
characters is a LIKE wildcard, the pattern match coincides with literal
case-insensitive substring containment, so e.g. "ali" in any case matches a
stored "Alice". -/
theorem c6_search_ilike_pattern (db : PlayerStore) (name : String)
    (skip limit : Nat) :
    (∀ ps, search_players_by_name db name skip limit = .ok ps →
      ps = ((db.players.filter (fun p => ilikeContains p.name name)).drop skip).take limit
      ∧ ps ≠ [])
    ∧ (db.players.filter (fun p => ilikeContains p.name name) = [] →
      search_players_by_name db name skip limit =
        .error ⟨404, "No players found with the given name"⟩)
    ∧ ((∀ c ∈ lowerChars name.data, c ≠ '%' ∧ c ≠ '_') →
      ∀ hay : String, ilikeContains hay name = containsCI hay name) := by
  refine ⟨?_, ?_, fun hn hay => ilikeContains_eq_containsCI hay name hn⟩
  · intro ps hok
    simp only [search_players_by_name] at hok
    by_cases he :
        (((db.players.filter (fun p => ilikeContains p.name name)).drop skip).take limit).isEmpty = true
    · rw [if_pos he] at hok
      cases hok
    · rw [if_neg he] at hok
      injection hok with h1
      subst h1
      exact ⟨rfl, by simpa using he⟩
  · intro hempty
    simp [search_players_by_name, hempty]

/-- C6 counterexample to the claim as stated: with "abc" stored, searching
"a_c" returns the player — the unescaped `_` acts as a one-character
wildcard and matches `b` — although no stored name contains the substring
"a_c", so the claim's matching set is empty and it predicts 404. -/
theorem c6_counterexample :
    search_players_by_name (⟨[{ id := 0, name := "abc" }], 1⟩ : PlayerStore) "a_c" 0 100 =
      .ok [{ id := 0, name := "abc" }]
    ∧ (⟨[{ id := 0, name := "abc" }], 1⟩ : PlayerStore).players.filter
        (fun p => containsCI p.name "a_c") = []
    ∧ containsCI "abc" "a_c" = false := by
  refine ⟨rfl, ?_, by decide⟩
  decide

/-- C6 witness: "ALI" carries no LIKE wildcard, so the ilike match agrees
with literal containment, and searching it in a store holding "Alice"
returns that player. -/
theorem c6_witness :
    search_players_by_name (⟨[{ id := 0, name := "Alice" }], 1⟩ : PlayerStore) "ALI" 0 100 =
      .ok [{ id := 0, name := "Alice" }]
    ∧ ilikeContains "Alice" "ALI" = containsCI "Alice" "ALI"
    ∧ containsCI "Alice" "ALI" = true := by
  refine ⟨rfl, ?_, by decide⟩
  exact (c6_search_ilike_pattern (⟨[{ id := 0, name := "Alice" }], 1⟩ : PlayerStore)
      "ALI" 0 100).2.2 (by decide) "Alice"

/-- C10: the empty search string matches every stored player: the filter
keeps the whole list, a non-empty page is returned exactly as the list
endpoint would return it, and 404 occurs exactly when the page at that
offset is empty. -/
theorem c10_empty_search_is_list (db : PlayerStore) (skip limit : Nat) :
    db.players.filter (fun p => containsCI p.name "") = db.players
    ∧ (read_players db skip limit ≠ [] →
      search_players_by_name db "" skip limit = .ok (read_players db skip limit))
    ∧ (read_players db skip limit = [] →
      search_players_by_name db "" skip limit =
        .error ⟨404, "No players found with the given name"⟩) := by
  have hfilter : db.players.filter (fun p => ilikeContains p.name "") = db.players :=
    List.filter_eq_self.mpr (fun p _ => ilikeContains_empty p.name)
  refine ⟨List.filter_eq_self.mpr (fun p _ => containsCI_empty p.name), ?_, ?_⟩
  · intro hne
    simp only [search_players_by_name]
    rw [hfilter, if_neg (by simpa [read_players] using hne)]
    rfl
  · intro hemp
    simp only [search_players_by_name]
    rw [hfilter, if_pos (by simpa [read_players] using hemp)]

/-- C10 witness: with one stored player, the empty search returns the full
page as the list endpoint does; on the empty store it returns 404. -/
theorem c10_witness :
    search_players_by_name (⟨[{ id := 0, name := "Alice" }], 1⟩ : PlayerStore) "" 0 100 =
      .ok (read_players (⟨[{ id := 0, name := "Alice" }], 1⟩ : PlayerStore) 0 100)
    ∧ search_players_by_name PlayerStore.empty "" 0 100 =
      .error ⟨404, "No players found with the given name"⟩ :=
  ⟨(c10_empty_search_is_list (⟨[{ id := 0, name := "Alice" }], 1⟩ : PlayerStore) 0 100).2.1
      (by decide),
   (c10_empty_search_is_list PlayerStore.empty 0 100).2.2 (by decide)⟩

/-- C8: the upload endpoint rejects a filename without the ".csv" extension
with a 400 error and an unchanged store (no players inserted); with the
extension present, the body is parsed as header-keyed rows and handed to the
row loop. -/
theorem c8_filename_gate (db : PlayerStore) (filename content : String) :
    (strEndsWith filename ".csv" = false →
      upload_players_csv db filename content =
        .error (⟨400, "Only CSV files are allowed"⟩, db))
    ∧ (strEndsWith filename ".csv" = true →
      upload_players_csv db filename content =
        match processRows db (parseCSV content) [] with
        | .error (e, db') => .error (wrapCsvError e, db')
        | .ok r => .ok r) := by
  constructor
  · intro hf
    unfold upload_players_csv
    rw [if_pos (by simp [hf])]
  · intro hf
    unfold upload_players_csv
    rw [if_neg (by simp [hf])]

/-- C8 witness: a ".txt" filename is rejected with no insertion, while a
".csv" filename reaches the row loop on the parsed rows. -/
theorem c8_witness :
    upload_players_csv PlayerStore.empty "players.txt" "name\nAlice" =
      .error (⟨400, "Only CSV files are allowed"⟩, PlayerStore.empty)
    ∧ upload_players_csv PlayerStore.empty "players.csv" "name\nAlice" =
        match processRows PlayerStore.empty (parseCSV "name\nAlice") [] with
        | .error (e, db') => .error (wrapCsvError e, db')
        | .ok r => .ok r :=
  ⟨(c8_filename_gate PlayerStore.empty "players.txt" "name\nAlice").1 (by decide),
   (c8_filename_gate PlayerStore.empty "players.csv" "name\nAlice").2 (by decide)⟩

end PlayerBackend
